import Mathlib

set_option maxHeartbeats 1600000
set_option linter.unusedVariables false

/-! Verification development for the OpenGolfCoach shot-analysis engine and its
Python binding layer (repository homeassistant-opengolfcoach).

The binding function is embedded from `src/rust_extension/src/lib.rs`.  The
core computation engine (the `opengolfcoach` crate: input validator, spin
decomposer, trajectory simulator, shot classifier, club-performance
estimator) is not part of the packaged sources, so those components are
modelled from the specification, as noted on each definition.  Numeric
fields are modelled as rationals (the floating-point values of the real
program), except the exact trigonometric spin decomposition of the spec's
data model, which is modelled over the reals. -/

/-- Modelled from the spec (section 6 and 7): the core error taxonomy of the
missing `opengolfcoach` crate.  The core distinguishes a `ValidationError`
naming the offending field from a `PhysicsError` describing a simulation
failure. -/
inductive CoreError where
  | validationError (field : String)
  | physicsError (message : String)
deriving DecidableEq

/-- Modelled from the spec (section 6): the human-readable textual
description of a core error (the `Display` rendering of the missing core
crate), carrying the variant name and its context. -/
def CoreError.description : CoreError → String
  | .validationError f => "ValidationError: missing or invalid field " ++ f
  | .physicsError m => "PhysicsError: " ++ m

/-- Python exception values the binding layer can raise.  Besides
`pyValueError` (the one `lib.rs` actually constructs) the type lists other
standard exception classes, so that a statement of the form "only
`PyValueError` is ever raised" is meaningful in the model. -/
inductive PyException where
  | pyValueError (message : String)
  | pyTypeError (message : String)
  | pyRuntimeError (message : String)
deriving DecidableEq

/-- Embedded from `src/rust_extension/src/lib.rs`, function
`calculate_derived_values`: call the core function on the input string and
map any core error to a `PyValueError` whose message prefixes the core
error's description with "Calculation failed: ".  The core function itself
is not part of these sources, so it is passed as a parameter. -/
def calculate_derived_values (core : String → Except CoreError String)
    (json_input : String) : Except PyException String :=
  match core json_input with
  | .ok out => .ok out
  | .error e => .error (.pyValueError ("Calculation failed: " ++ e.description))

/-- Modelled from the spec (section 3, SpinVector): exact trigonometric spin
decomposition over the reals, angle in degrees.
`backspin = total * cos axis`, `sidespin = total * sin axis`. -/
noncomputable def decomposeSpin (total axis : ℝ) : ℝ × ℝ :=
  (total * Real.cos (axis * Real.pi / 180),
   total * Real.sin (axis * Real.pi / 180))

/-- Modelled from the spec (section 3, SpinVector): the inverse of
`decomposeSpin`, recovering total spin as the Euclidean magnitude of the
component pair and the axis (in degrees) from their ratio. -/
noncomputable def recomposeSpin (backspin sidespin : ℝ) : ℝ × ℝ :=
  (Real.sqrt (backspin ^ 2 + sidespin ^ 2),
   Real.arctan (sidespin / backspin) * 180 / Real.pi)

/-- Modelled from the spec: rational approximation of the sine of an angle
given in degrees on `[0, 180]` (Bhaskara's formula), used by the executable
core model where the real program uses floating-point `sin`.  The spec's
design notes make the exact empirical curves a tunable parameter set. -/
def bhaskaraSin (a : ℚ) : ℚ :=
  4 * a * (180 - a) / (40500 - a * (180 - a))

/-- Modelled from the spec: sine of an angle in degrees for the executable
core model, extended to negative angles by oddness. -/
def sinDeg (x : ℚ) : ℚ :=
  if 0 ≤ x then bhaskaraSin x else -bhaskaraSin (-x)

/-- Modelled from the spec: cosine of an angle in degrees for the executable
core model, valid on the validator-guaranteed range `[-90, 90]`. -/
def cosDeg (x : ℚ) : ℚ :=
  bhaskaraSin (90 - |x|)

/-- Modelled from the spec (section 6, Request): the raw boundary record.
Every known key is optional at this level; presence is checked by the
validator.  Rationals model the floating-point numbers of the request. -/
structure RawShotInput where
  ball_speed_meters_per_second : Option ℚ
  vertical_launch_angle_degrees : Option ℚ
  horizontal_launch_angle_degrees : Option ℚ
  total_spin_rpm : Option ℚ
  spin_axis_degrees : Option ℚ
  backspin_rpm : Option ℚ
  sidespin_rpm : Option ℚ
  club_speed_meters_per_second : Option ℚ
deriving DecidableEq

/-- Modelled from the spec (section 3, ShotMeasurement): the validated,
typed measurement.  A missing horizontal angle has already been defaulted
to 0 and the spin representation has been canonicalized to orthogonal
backspin/sidespin components; an absent club speed stays optional. -/
structure ShotMeasurement where
  ballSpeed : ℚ
  verticalLaunchAngle : ℚ
  horizontalLaunchAngle : ℚ
  backspin : ℚ
  sidespin : ℚ
  clubSpeed : Option ℚ
deriving DecidableEq

/-- Modelled from the spec (section 4.2, Spin Decomposer): canonical
backspin/sidespin components of a raw request.  Direct components take
precedence; otherwise a supplied (total, axis) pair is decomposed
trigonometrically; with no spin representation at all the zero-spin
assumption is used. -/
def spinComponents (r : RawShotInput) : ℚ × ℚ :=
  match r.backspin_rpm, r.sidespin_rpm with
  | some b, some s => (b, s)
  | _, _ =>
    match r.total_spin_rpm, r.spin_axis_degrees with
    | some t, some ax => (t * cosDeg ax, t * sinDeg ax)
    | _, _ => (0, 0)

/-- Modelled from the spec (section 4.1, Input Model and Validator): fail
with a `ValidationError` naming the first missing or out-of-range required
field (`ball_speed_meters_per_second` must be present and positive,
`vertical_launch_angle_degrees` present and within `[-90, 90]`), otherwise
produce the validated `ShotMeasurement` with the documented defaults.
Finiteness checks of the real program are vacuous over rationals. -/
def validate (r : RawShotInput) : Except CoreError ShotMeasurement :=
  match r.ball_speed_meters_per_second with
  | none => .error (.validationError "ball_speed_meters_per_second")
  | some bs =>
    if bs ≤ 0 then .error (.validationError "ball_speed_meters_per_second")
    else
      match r.vertical_launch_angle_degrees with
      | none => .error (.validationError "vertical_launch_angle_degrees")
      | some vla =>
        if vla < -90 ∨ 90 < vla then
          .error (.validationError "vertical_launch_angle_degrees")
        else
          .ok { ballSpeed := bs
                verticalLaunchAngle := vla
                horizontalLaunchAngle := r.horizontal_launch_angle_degrees.getD 0
                backspin := (spinComponents r).1
                sidespin := (spinComponents r).2
                clubSpeed := r.club_speed_meters_per_second }

/-- Decidable equality of `Except` results, used to evaluate the model on
concrete inputs. -/
instance exceptDecidableEq {ε α : Type} [DecidableEq ε] [DecidableEq α] :
    DecidableEq (Except ε α) := fun x y =>
  match x, y with
  | .ok a, .ok b =>
    if h : a = b then isTrue (by rw [h])
    else isFalse (by intro hc; injection hc; exact h ‹_›)
  | .error a, .error b =>
    if h : a = b then isTrue (by rw [h])
    else isFalse (by intro hc; injection hc; exact h ‹_›)
  | .ok _, .error _ => isFalse fun hc => Except.noConfusion hc
  | .error _, .ok _ => isFalse fun hc => Except.noConfusion hc

/-- Modelled from the spec (section 4.3): spin configuration of one
simulation - the canonical backspin and sidespin components in rpm. -/
structure SimConfig where
  backspin : ℚ
  sidespin : ℚ
deriving DecidableEq

/-- Modelled from the spec (section 3, TrajectorySample): one point in
flight - downrange, lateral and vertical position, the velocity vector and
elapsed time. -/
structure SimState where
  x : ℚ
  y : ℚ
  z : ℚ
  vx : ℚ
  vy : ℚ
  vz : ℚ
  t : ℚ
deriving DecidableEq

/-- Modelled from the spec: fixed integration timestep (seconds). -/
def dt : ℚ := 1 / 100

/-- Modelled from the spec: gravitational acceleration (m per s squared). -/
def grav : ℚ := 98 / 10

/-- Modelled from the spec: drag coefficient of the quadratic drag model
(a tunable empirical parameter per the design notes). -/
def dragK : ℚ := 1 / 500

/-- Modelled from the spec: lift coefficient coupling spin rate and speed
to the Magnus acceleration (a tunable empirical parameter). -/
def liftK : ℚ := 1 / 50000

/-- Modelled from the spec (section 5): maximum number of integration steps,
guaranteeing termination even on pathological inputs. -/
def maxSteps : Nat := 6000

/-- Modelled from the spec (section 4.3): roll-out gain of the landing
model (a tunable empirical parameter). -/
def kRoll : ℚ := 2

/-- Modelled from the spec (section 4.3): one explicit-Euler integration
step under gravity, quadratic drag opposing each velocity component, and a
Magnus lift acceleration proportional to spin rate and downrange speed,
acting vertically (backspin) and laterally (sidespin).  The drag factor on
the downrange component is clamped at zero so drag can stop but never
reverse the motion (the spec's guard against unphysical blow-up). -/
def stepState (c : SimConfig) (s : SimState) : SimState :=
  { x := s.x + s.vx * dt
    y := s.y + s.vy * dt
    z := s.z + s.vz * dt
    vx := s.vx * max 0 (1 - dragK * s.vx * dt)
    vy := s.vy + liftK * c.sidespin * s.vx * dt
    vz := s.vz - grav * dt - dragK * s.vz * |s.vz| * dt + liftK * c.backspin * s.vx * dt
    t := s.t + dt }

/-- Modelled from the spec (section 4.3): ground contact test - vertical
position at or below zero with non-ascending vertical velocity. -/
def groundContactB (s : SimState) : Bool :=
  decide (s.z ≤ 0) && decide (s.vz ≤ 0)

/-- Modelled from the spec (section 4.3): the sample sequence produced
after launch - step repeatedly, stopping at the first ground contact or
when the fuel (iteration bound) runs out. -/
def simAux (c : SimConfig) : Nat → SimState → List SimState
  | 0, _ => []
  | fuel + 1, s =>
    if groundContactB (stepState c s) then [stepState c s]
    else stepState c s :: simAux c fuel (stepState c s)

/-- Modelled from the spec (section 3, TrajectorySample): the full finite
ordered sample sequence, launch state first. -/
def trajectory (c : SimConfig) (s0 : SimState) : List SimState :=
  s0 :: simAux c maxSteps s0

/-- Modelled from the spec (section 4.3): the state at which the simulation
ends - the first ground-contact state, or the state after the iteration
bound is exhausted. -/
def finalState (c : SimConfig) : Nat → SimState → SimState
  | 0, s => s
  | fuel + 1, s =>
    if groundContactB (stepState c s) then stepState c s
    else finalState c fuel (stepState c s)

/-- Modelled from the spec (section 4.3): initial state of the simulation
from a validated measurement - origin position, velocity components from
ball speed and the two launch angles. -/
def initialState (m : ShotMeasurement) : SimState :=
  { x := 0
    y := 0
    z := 0
    vx := m.ballSpeed * cosDeg m.verticalLaunchAngle
    vy := m.ballSpeed * sinDeg m.horizontalLaunchAngle
    vz := m.ballSpeed * sinDeg m.verticalLaunchAngle
    t := 0 }

/-- Modelled from the spec: the spin configuration of a measurement. -/
def spinCfg (m : ShotMeasurement) : SimConfig :=
  { backspin := m.backspin, sidespin := m.sidespin }

/-- Modelled from the spec: the landing (or bound-exhausted) state of the
simulated trajectory of a measurement. -/
def landingState (m : ShotMeasurement) : SimState :=
  finalState (spinCfg m) maxSteps (initialState m)

/-- Modelled from the spec (glossary): carry distance - downrange position
at first ground contact. -/
def carryOf (m : ShotMeasurement) : ℚ :=
  (landingState m).x

/-- Modelled from the spec (section 4.3): roll-out - a non-negative amount
added on top of carry, a decreasing function of how steeply the ball lands
(ratio of vertical to downrange landing speed). -/
def rolloutOf (m : ShotMeasurement) : ℚ :=
  kRoll * (landingState m).vx * (landingState m).vx /
    ((landingState m).vx + |(landingState m).vz|)

/-- Modelled from the spec (glossary): total distance - carry plus
roll-out. -/
def totalOf (m : ShotMeasurement) : ℚ :=
  carryOf m + rolloutOf m

/-- Modelled from the spec (glossary): signed lateral deviation at
landing. -/
def offlineOf (m : ShotMeasurement) : ℚ :=
  (landingState m).y

/-- Modelled from the spec (section 4.3): apex height - the maximum
vertical position over the sample sequence (at least the launch height
zero). -/
def apexOf (m : ShotMeasurement) : ℚ :=
  (trajectory (spinCfg m) (initialState m)).foldl (fun a s => max a s.z) 0

/-- Modelled from the spec: flight time - elapsed time at the landing
state. -/
def flightTimeOf (m : ShotMeasurement) : ℚ :=
  (landingState m).t

/-- Modelled from the spec (section 4.4): the curvature of the shot
expressed as an equivalent angle in degrees - the lateral deviation beyond
the straight start line, divided by carry and scaled by the small-angle
degree factor. -/
def curveDegOf (m : ShotMeasurement) : ℚ :=
  573 / 10 * (offlineOf m - m.ballSpeed * sinDeg m.horizontalLaunchAngle * flightTimeOf m)
    / carryOf m

/-- Modelled from the spec (section 4.4, Shot Classifier): deterministic
partition of the two signed quantities (start direction, curvature) into
named buckets by fixed angular thresholds, ties resolving toward the
milder category; returns the label, severity rank and display color. -/
def classifyShot (startDeg curveDeg : ℚ) : String × Nat × String :=
  if curveDeg < -2 then
    if curveDeg < -8 then ("hook", 3, "#D32F2F") else ("draw", 1, "#388E3C")
  else if 2 < curveDeg then
    if 8 < curveDeg then ("slice", 3, "#B71C1C") else ("fade", 1, "#689F38")
  else
    if startDeg < -2 then ("pull", 2, "#F57C00")
    else if 2 < startDeg then ("push", 2, "#FBC02D")
    else ("straight", 0, "#FFFFFF")

/-- Modelled from the spec (section 4.5, Club-Performance Estimator): the
typical smash factor assumed for the club type inferred from ball speed;
all values lie in the documented plausible band `[1.0, 1.6]`. -/
def assumedSmash (ballSpeed : ℚ) : ℚ :=
  if 60 ≤ ballSpeed then 148 / 100
  else if 30 ≤ ballSpeed then 138 / 100
  else 5 / 4

/-- Modelled from the spec (section 4.5): club speed and smash factor, plus
whether club speed was measured.  With a supplied club speed the smash
factor is the direct ratio; otherwise club speed is estimated by inverting
the assumed smash relationship and the smash factor is computed from the
estimate. -/
def clubMetrics (m : ShotMeasurement) : ℚ × ℚ × Bool :=
  match m.clubSpeed with
  | some cs => (cs, m.ballSpeed / cs, true)
  | none =>
    (m.ballSpeed / assumedSmash m.ballSpeed,
     m.ballSpeed / (m.ballSpeed / assumedSmash m.ballSpeed), false)

/-- Modelled from the spec (section 3, DerivedShotValues): the immutable
output record assembled from all derived fields. -/
structure DerivedShotValues where
  carryDistance : ℚ
  totalDistance : ℚ
  offlineDistance : ℚ
  apexHeight : ℚ
  flightTime : ℚ
  backspin : ℚ
  sidespin : ℚ
  clubSpeed : ℚ
  clubSpeedMeasured : Bool
  smashFactor : ℚ
  shotName : String
  shotRank : Nat
  shotColor : String
deriving DecidableEq

/-- Modelled from the spec (sections 2 and 4.7): the core pipeline on a
validated measurement - simulate, classify, estimate, and assemble every
derived field into one complete response. -/
def computeDerived (m : ShotMeasurement) : DerivedShotValues :=
  { carryDistance := carryOf m
    totalDistance := totalOf m
    offlineDistance := offlineOf m
    apexHeight := apexOf m
    flightTime := flightTimeOf m
    backspin := m.backspin
    sidespin := m.sidespin
    clubSpeed := (clubMetrics m).1
    clubSpeedMeasured := (clubMetrics m).2.2
    smashFactor := (clubMetrics m).2.1
    shotName := (classifyShot m.horizontalLaunchAngle (curveDegOf m)).1
    shotRank := (classifyShot m.horizontalLaunchAngle (curveDegOf m)).2.1
    shotColor := (classifyShot m.horizontalLaunchAngle (curveDegOf m)).2.2 }

/-- Modelled from the spec (section 7): the whole core operation with an
arbitrary derivation stage - validation happens first and aborts
immediately on failure, so a validation error is produced before any
simulation work begins and no partial response exists. -/
def calculateWith (derive : ShotMeasurement → DerivedShotValues)
    (r : RawShotInput) : Except CoreError DerivedShotValues :=
  (validate r).map derive

/-- Modelled from the spec (section 2): the concrete core operation on a
structured request. -/
def calculateShot (r : RawShotInput) : Except CoreError DerivedShotValues :=
  calculateWith computeDerived r

/-- Bound invariant used by the monotonicity analysis of the simulator:
non-negative and capped downrange speed, and a vertical speed bound that
widens as fuel is consumed (it absorbs the worst-case per-step growth from
gravity and lift in the physically plausible regime). -/
def SimBounds (fuel : Nat) (s : SimState) : Prop :=
  0 ≤ s.vx ∧ s.vx ≤ 200 ∧ |s.vz| ≤ 5600 - (fuel : ℚ) * (9 / 10)

/-- C1: for every input string, the public operation either succeeds with
exactly the core's complete result, or fails with the single textual
failure `PyValueError` carrying "Calculation failed: " followed by the
human-readable description of the named internal core error; no third
outcome, and no partial response, is possible past the boundary. -/
theorem claim_C1_boundary_total_or_named_error
    (core : String → Except CoreError String) (input : String) :
    (∃ out, core input = .ok out ∧
      calculate_derived_values core input = .ok out) ∨
    (∃ e, core input = .error e ∧
      calculate_derived_values core input =
        .error (.pyValueError ("Calculation failed: " ++ e.description))) := by
  cases h : core input with
  | ok out => exact Or.inl ⟨out, rfl, by simp [calculate_derived_values, h]⟩
  | error e => exact Or.inr ⟨e, rfl, by simp [calculate_derived_values, h]⟩

/-- C9: every failure of the Python-exposed operation is raised as the
single exception type `PyValueError`, whose message is exactly
"Calculation failed: " followed by the core error's textual description;
the ValidationError/PhysicsError distinction survives only inside that
message text, never as a distinct exception constructor. -/
theorem claim_C9_single_exception_type
    (core : String → Except CoreError String) (input : String) (e : CoreError)
    (h : core input = .error e) :
    calculate_derived_values core input =
      .error (.pyValueError ("Calculation failed: " ++ e.description)) := by
  simp [calculate_derived_values, h]

/-- Witness for C9 at a concrete failing core and input, one failure of
each core error variant, both mapped to the `pyValueError` constructor. -/
theorem claim_C9_single_exception_type_witness :
    calculate_derived_values
        (fun _ => .error (.validationError "ball_speed_meters_per_second")) "" =
      .error (.pyValueError
        ("Calculation failed: " ++
          (CoreError.validationError "ball_speed_meters_per_second").description)) ∧
    calculate_derived_values (fun _ => .error (.physicsError "diverged")) "x" =
      .error (.pyValueError
        ("Calculation failed: " ++ (CoreError.physicsError "diverged").description)) :=
  ⟨claim_C9_single_exception_type _ "" _ rfl,
   claim_C9_single_exception_type _ "x" _ rfl⟩

/-- C10: on success the Python-exposed operation returns exactly the string
produced by the core function for the same input, unchanged - the binding
performs no transformation of a successful result. -/
theorem claim_C10_success_passthrough
    (core : String → Except CoreError String) (input : String) (out : String)
    (h : core input = .ok out) :
    calculate_derived_values core input = .ok out := by
  simp [calculate_derived_values, h]

/-- Witness for C10 at a concrete succeeding core and input. -/
theorem claim_C10_success_passthrough_witness :
    calculate_derived_values (fun _ => .ok "result") "input" = .ok "result" :=
  claim_C10_success_passthrough _ "input" "result" rfl

/-- C2: for every input record missing the required field
`ball_speed_meters_per_second`, and for every derivation stage whatsoever
(so before any simulation work can contribute), the core operation fails
with a `ValidationError` naming that field and returns no partial
response. -/
theorem claim_C2_missing_ball_speed
    (derive : ShotMeasurement → DerivedShotValues) (r : RawShotInput)
    (h : r.ball_speed_meters_per_second = none) :
    calculateWith derive r =
      .error (.validationError "ball_speed_meters_per_second") := by
  simp [calculateWith, validate, h, Except.map]

/-- Witness for C2 at a concrete all-absent record with the concrete
derivation stage of the model. -/
theorem claim_C2_missing_ball_speed_witness :
    calculateWith computeDerived
        { ball_speed_meters_per_second := none
          vertical_launch_angle_degrees := some 12
          horizontal_launch_angle_degrees := none
          total_spin_rpm := none
          spin_axis_degrees := none
          backspin_rpm := none
          sidespin_rpm := none
          club_speed_meters_per_second := none } =
      .error (.validationError "ball_speed_meters_per_second") :=
  claim_C2_missing_ball_speed computeDerived _ rfl

theorem assumedSmash_band (b : ℚ) : 1 ≤ assumedSmash b ∧ assumedSmash b ≤ 8 / 5 := by
  unfold assumedSmash
  split_ifs <;> norm_num

theorem assumedSmash_ne_zero (b : ℚ) : assumedSmash b ≠ 0 := by
  unfold assumedSmash
  split_ifs <;> norm_num

/-- C8: whenever `clubSpeed` is supplied in the input, the returned
`smashFactor` is exactly `ballSpeed / clubSpeed`; whenever `clubSpeed` is
estimated rather than measured, the returned `smashFactor` lies within the
documented physically plausible band `[1.0, 1.6]`. -/
theorem claim_C8_smash_factor (m : ShotMeasurement) (hbs : 0 < m.ballSpeed) :
    (∀ cs, m.clubSpeed = some cs →
      (computeDerived m).smashFactor = m.ballSpeed / cs) ∧
    (m.clubSpeed = none →
      1 ≤ (computeDerived m).smashFactor ∧ (computeDerived m).smashFactor ≤ 8 / 5) := by
  constructor
  · intro cs h
    simp [computeDerived, clubMetrics, h]
  · intro h
    have hval : (computeDerived m).smashFactor =
        m.ballSpeed / (m.ballSpeed / assumedSmash m.ballSpeed) := by
      simp [computeDerived, clubMetrics, h]
    have hcanc : m.ballSpeed / (m.ballSpeed / assumedSmash m.ballSpeed) =
        assumedSmash m.ballSpeed := by
      field_simp
    rw [hval, hcanc]
    exact assumedSmash_band m.ballSpeed

/-- Witness for C8: a measured club speed gives the exact ratio, and a
missing club speed gives a smash factor inside the plausible band. -/
theorem claim_C8_smash_factor_witness :
    (computeDerived
        { ballSpeed := 70, verticalLaunchAngle := 25 / 2, horizontalLaunchAngle := 0
          backspin := 2500, sidespin := 0, clubSpeed := some 50 }).smashFactor =
      (70 : ℚ) / 50 ∧
    (1 ≤ (computeDerived
        { ballSpeed := 70, verticalLaunchAngle := 25 / 2, horizontalLaunchAngle := 0
          backspin := 2500, sidespin := 0, clubSpeed := none }).smashFactor ∧
     (computeDerived
        { ballSpeed := 70, verticalLaunchAngle := 25 / 2, horizontalLaunchAngle := 0
          backspin := 2500, sidespin := 0, clubSpeed := none }).smashFactor ≤ 8 / 5) :=
  ⟨(claim_C8_smash_factor _ (by norm_num)).1 50 rfl,
   (claim_C8_smash_factor _ (by norm_num)).2 rfl⟩

theorem sinDeg_zero : sinDeg 0 = 0 := by
  norm_num [sinDeg, bhaskaraSin]

theorem finalState_lateral (c : SimConfig) (hside : c.sidespin = 0) :
    ∀ (fuel : Nat) (s : SimState), s.vy = 0 →
      (finalState c fuel s).y = s.y ∧ (finalState c fuel s).vy = 0 := by
  intro fuel
  induction fuel with
  | zero => exact fun s h => ⟨rfl, h⟩
  | succ n ih =>
    intro s h
    have hstep_vy : (stepState c s).vy = 0 := by simp [stepState, hside, h]
    have hstep_y : (stepState c s).y = s.y := by simp [stepState, h]
    by_cases hg : groundContactB (stepState c s) = true
    · simp only [finalState, hg, if_true]
      exact ⟨hstep_y, hstep_vy⟩
    · simp only [finalState, hg, if_false]
      have hrec := ih (stepState c s) hstep_vy
      exact ⟨hrec.1.trans hstep_y, hrec.2⟩

/-- C7: for every input with zero spin and zero horizontal launch angle,
the computed `offlineDistance` equals 0 and the shot classifier returns
the label "straight". -/
theorem claim_C7_zero_spin_straight (m : ShotMeasurement)
    (hback : m.backspin = 0) (hside : m.sidespin = 0)
    (hhla : m.horizontalLaunchAngle = 0) :
    (computeDerived m).offlineDistance = 0 ∧
    (computeDerived m).shotName = "straight" := by
  have hvy0 : (initialState m).vy = 0 := by
    simp [initialState, hhla, sinDeg_zero]
  have hlat := finalState_lateral (spinCfg m) hside maxSteps (initialState m) hvy0
  have hoff : offlineOf m = 0 := by
    unfold offlineOf landingState
    rw [hlat.1]
    rfl
  refine ⟨hoff, ?_⟩
  show (classifyShot m.horizontalLaunchAngle (curveDegOf m)).1 = "straight"
  have hcurve : curveDegOf m = 0 := by
    unfold curveDegOf
    rw [hoff, hhla, sinDeg_zero]
    simp
  rw [hhla, hcurve]
  decide

/-- Witness for C7 at a concrete zero-spin, zero-horizontal-angle
measurement. -/
theorem claim_C7_zero_spin_straight_witness :
    (computeDerived
        { ballSpeed := 70, verticalLaunchAngle := 25 / 2, horizontalLaunchAngle := 0
          backspin := 0, sidespin := 0, clubSpeed := none }).offlineDistance = 0 ∧
    (computeDerived
        { ballSpeed := 70, verticalLaunchAngle := 25 / 2, horizontalLaunchAngle := 0
          backspin := 0, sidespin := 0, clubSpeed := none }).shotName = "straight" :=
  claim_C7_zero_spin_straight _ rfl rfl rfl

/-- Counterexample for C3 as stated: with total spin 0 and axis 5 degrees,
decomposing gives the zero spin vector, and recomposition returns axis 0,
which is 5 degrees away from the original axis - far outside any floating
tolerance.  The quantifier "for every total spin" therefore fails at
total spin 0. -/
theorem claim_C3_counterexample :
    ¬ (|(recomposeSpin (decomposeSpin 0 5).1 (decomposeSpin 0 5).2).1 - 0| ≤ 1 ∧
       |(recomposeSpin (decomposeSpin 0 5).1 (decomposeSpin 0 5).2).2 - 5| ≤ 1) := by
  have h1 : decomposeSpin 0 5 = (0, 0) := by
    simp [decomposeSpin]
  have h2 : recomposeSpin 0 0 = (0, 0) := by
    simp [recomposeSpin]
  intro h
  have := h.2
  rw [h1] at this
  rw [h2] at this
  norm_num at this

/-- C3 (amended): for every strictly positive total spin and every spin
axis in the open interval (-89, 89) degrees, decomposing (total, axis)
into (backspin, sidespin) and recomposing reproduces the original
(total, axis) exactly (hence within any floating tolerance). -/
theorem claim_C3_spin_roundtrip (total axis : ℝ) (ht : 0 < total)
    (h1 : -89 < axis) (h2 : axis < 89) :
    recomposeSpin (decomposeSpin total axis).1 (decomposeSpin total axis).2 =
      (total, axis) := by
  have hpi := Real.pi_pos
  have hθlo : -(Real.pi / 2) < axis * Real.pi / 180 := by
    have hx : 0 < (axis + 90) * Real.pi := by
      have : (0 : ℝ) < axis + 90 := by linarith
      exact mul_pos this hpi
    nlinarith
  have hθhi : axis * Real.pi / 180 < Real.pi / 2 := by
    have hx : 0 < (90 - axis) * Real.pi := by
      have : (0 : ℝ) < 90 - axis := by linarith
      exact mul_pos this hpi
    nlinarith
  have hcos : 0 < Real.cos (axis * Real.pi / 180) :=
    Real.cos_pos_of_mem_Ioo ⟨hθlo, hθhi⟩
  unfold decomposeSpin recomposeSpin
  simp only
  rw [Prod.mk.injEq]
  constructor
  · have hsq : (total * Real.cos (axis * Real.pi / 180)) ^ 2 +
        (total * Real.sin (axis * Real.pi / 180)) ^ 2 = total ^ 2 := by
      have h := Real.sin_sq_add_cos_sq (axis * Real.pi / 180)
      linear_combination total ^ 2 * h
    rw [hsq, Real.sqrt_sq ht.le]
  · have hdiv : total * Real.sin (axis * Real.pi / 180) /
        (total * Real.cos (axis * Real.pi / 180)) =
        Real.tan (axis * Real.pi / 180) := by
      rw [Real.tan_eq_sin_div_cos, mul_div_mul_left _ _ ht.ne']
    rw [hdiv, Real.arctan_tan hθlo hθhi]
    field_simp

/-- Witness for C3 (amended) at total spin 2500 rpm and axis 0 degrees. -/
theorem claim_C3_spin_roundtrip_witness :
    recomposeSpin (decomposeSpin 2500 0).1 (decomposeSpin 2500 0).2 =
      ((2500 : ℝ), (0 : ℝ)) :=
  claim_C3_spin_roundtrip 2500 0 (by norm_num) (by norm_num) (by norm_num)

theorem bhaskaraSin_nonneg (a : ℚ) (h0 : 0 ≤ a) (h180 : a ≤ 180) :
    0 ≤ bhaskaraSin a := by
  unfold bhaskaraSin
  apply div_nonneg
  · nlinarith
  · nlinarith [sq_nonneg (a - 90)]

theorem bhaskaraSin_pos (a : ℚ) (h0 : 0 < a) (h180 : a < 180) :
    0 < bhaskaraSin a := by
  unfold bhaskaraSin
  apply div_pos
  · nlinarith
  · nlinarith [sq_nonneg (a - 90)]

theorem bhaskaraSin_le_one (a : ℚ) (h0 : 0 ≤ a) (h180 : a ≤ 180) :
    bhaskaraSin a ≤ 1 := by
  unfold bhaskaraSin
  rw [div_le_one (by nlinarith [sq_nonneg (a - 90)])]
  nlinarith [sq_nonneg (a - 90)]

theorem cosDeg_nonneg (x : ℚ) (h : |x| ≤ 90) : 0 ≤ cosDeg x := by
  unfold cosDeg
  have h0 := abs_nonneg x
  exact bhaskaraSin_nonneg _ (by linarith) (by linarith)

theorem cosDeg_le_one (x : ℚ) (h : |x| ≤ 90) : cosDeg x ≤ 1 := by
  unfold cosDeg
  have h0 := abs_nonneg x
  exact bhaskaraSin_le_one _ (by linarith) (by linarith)

theorem cosDeg_pos (x : ℚ) (h : |x| < 90) : 0 < cosDeg x := by
  unfold cosDeg
  have h0 := abs_nonneg x
  exact bhaskaraSin_pos _ (by linarith) (by linarith)

theorem sinDeg_abs_le_one (x : ℚ) (h : |x| ≤ 90) : |sinDeg x| ≤ 1 := by
  unfold sinDeg
  split_ifs with hx
  · have hb0 : 0 ≤ bhaskaraSin x :=
      bhaskaraSin_nonneg x hx (by linarith [le_abs_self x])
    rw [abs_of_nonneg hb0]
    exact bhaskaraSin_le_one x hx (by linarith [le_abs_self x])
  · push_neg at hx
    have hxn : 0 ≤ -x := by linarith
    have hb0 : 0 ≤ bhaskaraSin (-x) :=
      bhaskaraSin_nonneg _ hxn (by linarith [neg_le_abs x])
    rw [abs_neg, abs_of_nonneg hb0]
    exact bhaskaraSin_le_one _ hxn (by linarith [neg_le_abs x])

theorem sinDeg_pos (x : ℚ) (h0 : 0 < x) (h1 : x < 180) : 0 < sinDeg x := by
  unfold sinDeg
  rw [if_pos h0.le]
  exact bhaskaraSin_pos x h0 h1

theorem validate_ok_bounds {r : RawShotInput} {m : ShotMeasurement}
    (h : validate r = .ok m) :
    0 < m.ballSpeed ∧ -90 ≤ m.verticalLaunchAngle ∧ m.verticalLaunchAngle ≤ 90 := by
  unfold validate at h
  cases hbs : r.ball_speed_meters_per_second with
  | none => rw [hbs] at h; exact absurd h (by simp)
  | some bs =>
    rw [hbs] at h
    dsimp only at h
    by_cases hpos : bs ≤ 0
    · rw [if_pos hpos] at h; exact absurd h (by simp)
    · rw [if_neg hpos] at h
      cases hvla : r.vertical_launch_angle_degrees with
      | none => rw [hvla] at h; exact absurd h (by simp)
      | some vla =>
        rw [hvla] at h
        dsimp only at h
        by_cases hrng : vla < -90 ∨ 90 < vla
        · rw [if_pos hrng] at h; exact absurd h (by simp)
        · rw [if_neg hrng] at h
          push_neg at hrng
          injection h with hh
          subst hh
          exact ⟨not_le.mp hpos, hrng.1, hrng.2⟩

theorem finalState_vx_x (c : SimConfig) :
    ∀ (fuel : Nat) (s : SimState), 0 ≤ s.vx →
      0 ≤ (finalState c fuel s).vx ∧ s.x ≤ (finalState c fuel s).x := by
  intro fuel
  induction fuel with
  | zero => exact fun s h => ⟨h, le_refl _⟩
  | succ n ih =>
    intro s h
    have hvx' : 0 ≤ (stepState c s).vx := by
      show 0 ≤ s.vx * max 0 (1 - dragK * s.vx * dt)
      exact mul_nonneg h (le_max_left _ _)
    have hx' : s.x ≤ (stepState c s).x := by
      show s.x ≤ s.x + s.vx * dt
      have : 0 ≤ s.vx * dt := mul_nonneg h (by norm_num [dt])
      linarith
    by_cases hg : groundContactB (stepState c s) = true
    · simp only [finalState, hg, if_true]
      exact ⟨hvx', hx'⟩
    · simp only [finalState, hg, if_false]
      have hrec := ih (stepState c s) hvx'
      exact ⟨hrec.1, hx'.trans hrec.2⟩

theorem foldl_max_ge_init (l : List SimState) :
    ∀ a : ℚ, a ≤ l.foldl (fun b s => max b s.z) a := by
  induction l with
  | nil => exact fun a => le_refl a
  | cons s rest ih =>
    intro a
    have h1 : a ≤ max a s.z := le_max_left _ _
    have h2 := ih (max a s.z)
    simp only [List.foldl_cons]
    exact h1.trans h2

theorem rolloutOf_nonneg (m : ShotMeasurement) (h : 0 ≤ (landingState m).vx) :
    0 ≤ rolloutOf m := by
  unfold rolloutOf
  apply div_nonneg
  · have hk : (0 : ℚ) ≤ kRoll := by norm_num [kRoll]
    exact mul_nonneg (mul_nonneg hk h) h
  · have := abs_nonneg (landingState m).vz
    linarith

/-- C4: for every valid input, the produced derived values satisfy
`totalDistance ≥ carryDistance ≥ 0` and `apexHeight ≥ 0`. -/
theorem claim_C4_distance_invariants (r : RawShotInput) (m : ShotMeasurement)
    (h : validate r = .ok m) :
    0 ≤ (computeDerived m).carryDistance ∧
    (computeDerived m).carryDistance ≤ (computeDerived m).totalDistance ∧
    0 ≤ (computeDerived m).apexHeight := by
  obtain ⟨hbs, hlo, hhi⟩ := validate_ok_bounds h
  have habs : |m.verticalLaunchAngle| ≤ 90 := abs_le.mpr ⟨hlo, hhi⟩
  have hvx0 : 0 ≤ (initialState m).vx := by
    show 0 ≤ m.ballSpeed * cosDeg m.verticalLaunchAngle
    exact mul_nonneg hbs.le (cosDeg_nonneg _ habs)
  have hfin := finalState_vx_x (spinCfg m) maxSteps (initialState m) hvx0
  have hcarry : 0 ≤ carryOf m := by
    have hx0 : (initialState m).x = 0 := rfl
    have := hfin.2
    rw [hx0] at this
    exact this
  refine ⟨hcarry, ?_, ?_⟩
  · show carryOf m ≤ totalOf m
    have hroll : 0 ≤ rolloutOf m := rolloutOf_nonneg m hfin.1
    unfold totalOf
    linarith
  · show 0 ≤ apexOf m
    exact foldl_max_ge_init _ 0

/-- Witness for C4 at a concrete valid request. -/
theorem claim_C4_distance_invariants_witness :
    0 ≤ (computeDerived
        { ballSpeed := 70, verticalLaunchAngle := 12, horizontalLaunchAngle := 0
          backspin := 2500, sidespin := 0, clubSpeed := none }).carryDistance ∧
    (computeDerived
        { ballSpeed := 70, verticalLaunchAngle := 12, horizontalLaunchAngle := 0
          backspin := 2500, sidespin := 0, clubSpeed := none }).carryDistance ≤
      (computeDerived
        { ballSpeed := 70, verticalLaunchAngle := 12, horizontalLaunchAngle := 0
          backspin := 2500, sidespin := 0, clubSpeed := none }).totalDistance ∧
    0 ≤ (computeDerived
        { ballSpeed := 70, verticalLaunchAngle := 12, horizontalLaunchAngle := 0
          backspin := 2500, sidespin := 0, clubSpeed := none }).apexHeight :=
  claim_C4_distance_invariants
    { ball_speed_meters_per_second := some 70
      vertical_launch_angle_degrees := some 12
      horizontal_launch_angle_degrees := some 0
      total_spin_rpm := none
      spin_axis_degrees := none
      backspin_rpm := some 2500
      sidespin_rpm := some 0
      club_speed_meters_per_second := none } _ (by rfl)

theorem simAux_length_le (c : SimConfig) :
    ∀ (fuel : Nat) (s : SimState), (simAux c fuel s).length ≤ fuel := by
  intro fuel
  induction fuel with
  | zero => intro s; simp [simAux]
  | succ n ih =>
    intro s
    by_cases hg : groundContactB (stepState c s) = true
    · simp [simAux, hg]
    · simp only [simAux, hg, if_false, List.length_cons]
      exact Nat.succ_le_succ (ih _)

theorem simAux_nil_fuel (c : SimConfig) (fuel : Nat) (s : SimState)
    (h : simAux c fuel s = []) : fuel = 0 := by
  cases fuel with
  | zero => rfl
  | succ n =>
    exfalso
    by_cases hg : groundContactB (stepState c s) = true <;> simp [simAux, hg] at h

theorem simAux_interior_no_contact (c : SimConfig) :
    ∀ (fuel : Nat) (s : SimState),
      ((simAux c fuel s).dropLast.all fun u => !groundContactB u) = true := by
  intro fuel
  induction fuel with
  | zero => intro s; simp [simAux]
  | succ n ih =>
    intro s
    by_cases hg : groundContactB (stepState c s) = true
    · simp [simAux, hg]
    · simp only [simAux]
      rw [if_neg hg]
      cases hrest : simAux c n (stepState c s) with
      | nil => simp
      | cons a l =>
        rw [List.dropLast_cons₂, List.all_cons]
        have hih := ih (stepState c s)
        rw [hrest] at hih
        simp [hg, hih]

theorem simAux_last_contact_or_full (c : SimConfig) :
    ∀ (fuel : Nat) (s : SimState) (sL : SimState),
      (simAux c fuel s).getLast? = some sL →
      groundContactB sL = true ∨ (simAux c fuel s).length = fuel := by
  intro fuel
  induction fuel with
  | zero => intro s sL h; simp [simAux] at h
  | succ n ih =>
    intro s sL h
    by_cases hg : groundContactB (stepState c s) = true
    · simp only [simAux] at h
      rw [if_pos hg] at h
      simp only [List.getLast?_singleton, Option.some.injEq] at h
      exact Or.inl (h ▸ hg)
    · simp only [simAux] at h ⊢
      rw [if_neg hg] at h ⊢
      cases hrest : simAux c n (stepState c s) with
      | nil =>
        have hn : n = 0 := simAux_nil_fuel c n _ hrest
        right
        rw [hn]
        rfl
      | cons a l =>
        rw [hrest, List.getLast?_cons_cons] at h
        have hrec := ih (stepState c s) sL (by rw [hrest]; exact h)
        rcases hrec with hcontact | hlen
        · exact Or.inl hcontact
        · right
          rw [hrest] at hlen
          rw [List.length_cons, hlen]

/-- C5: the trajectory simulator terminates on every input, pathological
ones included - the sample sequence is a finite list of at most
`maxSteps + 1` samples; every sample strictly between launch and the last
one is airborne (so the sequence ends at the FIRST ground contact after
launch, vertical position at or below zero with non-ascending vertical
velocity); and the last sample is either such a ground contact or the
sequence has hit the maximum iteration bound. -/
theorem claim_C5_simulator_terminates (c : SimConfig) (s0 : SimState) :
    (trajectory c s0).length ≤ maxSteps + 1 ∧
    ((simAux c maxSteps s0).dropLast.all fun u => !groundContactB u) = true ∧
    ∃ sL, (trajectory c s0).getLast? = some sL ∧
      (groundContactB sL = true ∨ (trajectory c s0).length = maxSteps + 1) := by
  refine ⟨?_, simAux_interior_no_contact c maxSteps s0, ?_⟩
  · unfold trajectory
    rw [List.length_cons]
    exact Nat.succ_le_succ (simAux_length_le c maxSteps s0)
  · unfold trajectory
    cases hrest : simAux c maxSteps s0 with
    | nil =>
      exact absurd (simAux_nil_fuel c maxSteps s0 hrest) (by norm_num [maxSteps])
    | cons a l =>
      have hne : (a :: l) ≠ [] := List.cons_ne_nil a l
      refine ⟨(a :: l).getLast hne, ?_, ?_⟩
      · rw [List.getLast?_cons_cons, List.getLast?_eq_getLast _ hne]
      · have hsome : (simAux c maxSteps s0).getLast? = some ((a :: l).getLast hne) := by
          rw [hrest, List.getLast?_eq_getLast _ hne]
        rcases simAux_last_contact_or_full c maxSteps s0 _ hsome with hcontact | hlen
        · exact Or.inl hcontact
        · right
          rw [List.length_cons]
          rw [hrest] at hlen
          rw [hlen]

theorem mul_abs_mono (a b M : ℚ) (hab : b ≤ a) (ha : |a| ≤ M) (hb : |b| ≤ M) :
    a * |a| - b * |b| ≤ 2 * M * (a - b) ∧ 0 ≤ a * |a| - b * |b| := by
  have hM : 0 ≤ M := (abs_nonneg a).trans ha
  rcases abs_cases a with ⟨ha1, ha2⟩ | ⟨ha1, ha2⟩ <;>
    rcases abs_cases b with ⟨hb1, hb2⟩ | ⟨hb1, hb2⟩ <;>
    rw [ha1] at ha ⊢ <;> rw [hb1] at hb ⊢
  · constructor <;> nlinarith
  · constructor <;> nlinarith
  · constructor <;> nlinarith
  · constructor <;> nlinarith

theorem step_vx_mono (c : SimConfig) (s1 s2 : SimState)
    (h20 : 0 ≤ s2.vx) (h1M : s1.vx ≤ 200) (hvx : s2.vx < s1.vx) :
    (stepState c s2).vx < (stepState c s1).vx := by
  show s2.vx * max 0 (1 - dragK * s2.vx * dt) < s1.vx * max 0 (1 - dragK * s1.vx * dt)
  have hm1 : max 0 (1 - dragK * s1.vx * dt) = 1 - dragK * s1.vx * dt := by
    apply max_eq_right
    simp only [dragK, dt]
    nlinarith
  have hm2 : max 0 (1 - dragK * s2.vx * dt) = 1 - dragK * s2.vx * dt := by
    apply max_eq_right
    simp only [dragK, dt]
    nlinarith
  rw [hm1, hm2]
  simp only [dragK, dt]
  nlinarith [mul_pos (sub_pos.mpr hvx)
    (show (0 : ℚ) < 1 - (s1.vx + s2.vx) * (1 / 500) * (1 / 100) by nlinarith)]

theorem step_vz_mono (c : SimConfig) (hb0 : 0 ≤ c.backspin) (s1 s2 : SimState)
    (hz1 : |s1.vz| ≤ 5600) (hz2 : |s2.vz| ≤ 5600)
    (hvxle : s2.vx ≤ s1.vx) (hvz : s2.vz ≤ s1.vz) :
    (stepState c s2).vz ≤ (stepState c s1).vz := by
  show s2.vz - grav * dt - dragK * s2.vz * |s2.vz| * dt + liftK * c.backspin * s2.vx * dt ≤
    s1.vz - grav * dt - dragK * s1.vz * |s1.vz| * dt + liftK * c.backspin * s1.vx * dt
  have habs := mul_abs_mono s1.vz s2.vz 5600 hvz hz1 hz2
  have hlift : liftK * c.backspin * s2.vx * dt ≤ liftK * c.backspin * s1.vx * dt := by
    simp only [liftK, dt]
    nlinarith
  simp only [grav, dragK, liftK, dt]
  simp only [liftK, dt] at hlift
  linarith [habs.1, habs.2, hlift, hvz]

theorem simBounds_step (c : SimConfig) (hb0 : 0 ≤ c.backspin)
    (hbS : c.backspin ≤ 20000) (fuel : Nat) (s : SimState)
    (h : SimBounds (fuel + 1) s) : SimBounds fuel (stepState c s) := by
  obtain ⟨hvx0, hvxM, hvz⟩ := h
  push_cast at hvz
  have hfuelq : (0 : ℚ) ≤ (fuel : ℚ) := by positivity
  refine ⟨?_, ?_, ?_⟩
  · show 0 ≤ s.vx * max 0 (1 - dragK * s.vx * dt)
    exact mul_nonneg hvx0 (le_max_left _ _)
  · show s.vx * max 0 (1 - dragK * s.vx * dt) ≤ 200
    have hfac : max 0 (1 - dragK * s.vx * dt) ≤ 1 := by
      apply max_le
      · norm_num
      · simp only [dragK, dt]
        nlinarith
    calc s.vx * max 0 (1 - dragK * s.vx * dt) ≤ s.vx * 1 :=
          mul_le_mul_of_nonneg_left hfac hvx0
      _ = s.vx := mul_one _
      _ ≤ 200 := hvxM
  · show |s.vz - grav * dt - dragK * s.vz * |s.vz| * dt + liftK * c.backspin * s.vx * dt| ≤
      5600 - (fuel : ℚ) * (9 / 10)
    have hvzb : |s.vz| ≤ 5600 := by nlinarith
    have hfacpos : 0 ≤ 1 - dragK * |s.vz| * dt := by
      simp only [dragK, dt]
      nlinarith
    have hA : |s.vz - dragK * s.vz * |s.vz| * dt| ≤ |s.vz| := by
      have heq : s.vz - dragK * s.vz * |s.vz| * dt = s.vz * (1 - dragK * |s.vz| * dt) := by
        ring
      rw [heq, abs_mul, abs_of_nonneg hfacpos]
      have hle1 : 1 - dragK * |s.vz| * dt ≤ 1 := by
        simp only [dragK, dt]
        nlinarith [abs_nonneg s.vz]
      nlinarith [abs_nonneg s.vz]
    have hB : |(- (grav * dt) + liftK * c.backspin * s.vx * dt)| ≤ 9 / 10 := by
      rw [abs_le]
      constructor <;> simp only [grav, liftK, dt] <;> nlinarith
    have htri : |s.vz - grav * dt - dragK * s.vz * |s.vz| * dt +
        liftK * c.backspin * s.vx * dt| ≤
        |s.vz - dragK * s.vz * |s.vz| * dt| +
        |(- (grav * dt) + liftK * c.backspin * s.vx * dt)| := by
      have heq2 : s.vz - grav * dt - dragK * s.vz * |s.vz| * dt +
          liftK * c.backspin * s.vx * dt =
          (s.vz - dragK * s.vz * |s.vz| * dt) +
          (- (grav * dt) + liftK * c.backspin * s.vx * dt) := by
        ring
      rw [heq2]
      exact abs_add _ _
    linarith

theorem finalState_succ (c : SimConfig) (fuel : Nat) (s : SimState) :
    finalState c (fuel + 1) s =
      if groundContactB (stepState c s) then stepState c s
      else finalState c fuel (stepState c s) := rfl

theorem finalState_x_lt (c : SimConfig) (hb0 : 0 ≤ c.backspin)
    (hbS : c.backspin ≤ 20000) :
    ∀ (fuel : Nat) (s1 s2 : SimState),
      SimBounds fuel s1 → SimBounds fuel s2 →
      s2.x < s1.x → s2.vx < s1.vx → s2.z ≤ s1.z → s2.vz ≤ s1.vz →
      (finalState c fuel s2).x < (finalState c fuel s1).x := by
  intro fuel
  induction fuel with
  | zero =>
    intro s1 s2 _ _ hx _ _ _
    exact hx
  | succ n ih =>
    intro s1 s2 hB1 hB2 hx hvx hz hvz
    have hB1s : SimBounds n (stepState c s1) := simBounds_step c hb0 hbS n s1 hB1
    have hB2s : SimBounds n (stepState c s2) := simBounds_step c hb0 hbS n s2 hB2
    have hfc : (0 : ℚ) ≤ ((n + 1 : Nat) : ℚ) * (9 / 10) := by positivity
    have hvzb1 : |s1.vz| ≤ 5600 := by linarith [hB1.2.2]
    have hvzb2 : |s2.vz| ≤ 5600 := by linarith [hB2.2.2]
    have hx' : (stepState c s2).x < (stepState c s1).x := by
      show s2.x + s2.vx * dt < s1.x + s1.vx * dt
      simp only [dt]
      linarith
    have hvx' : (stepState c s2).vx < (stepState c s1).vx :=
      step_vx_mono c s1 s2 hB2.1 hB1.2.1 hvx
    have hz' : (stepState c s2).z ≤ (stepState c s1).z := by
      show s2.z + s2.vz * dt ≤ s1.z + s1.vz * dt
      simp only [dt]
      linarith
    have hvz' : (stepState c s2).vz ≤ (stepState c s1).vz :=
      step_vz_mono c hb0 s1 s2 hvzb1 hvzb2 hvx.le hvz
    have hcontact_imp : groundContactB (stepState c s1) = true →
        groundContactB (stepState c s2) = true := by
      intro hg
      simp only [groundContactB, Bool.and_eq_true, decide_eq_true_eq] at hg ⊢
      exact ⟨le_trans hz' hg.1, le_trans hvz' hg.2⟩
    by_cases hg1 : groundContactB (stepState c s1) = true
    · have hg2 := hcontact_imp hg1
      simp only [finalState]
      rw [if_pos hg1, if_pos hg2]
      exact hx'
    · by_cases hg2 : groundContactB (stepState c s2) = true
      · simp only [finalState]
        rw [if_neg hg1, if_pos hg2]
        exact lt_of_lt_of_le hx' (finalState_vx_x c n (stepState c s1) hB1s.1).2
      · simp only [finalState]
        rw [if_neg hg1, if_neg hg2]
        exact ih _ _ hB1s hB2s hx' hvx' hz' hvz'

/-- C6: monotonicity of the simulator - holding every other input fixed,
a strictly greater ball speed yields a strictly greater carry distance.
The side conditions formalize the claim's proviso ("within the simulated
launch-angle range where the trajectory remains a simple ascend-then-
descend arc"): an upward, non-vertical launch angle and physically
plausible speed and spin magnitudes. -/
theorem claim_C6_carry_monotonicity (m1 m2 : ShotMeasurement)
    (hvla : m2.verticalLaunchAngle = m1.verticalLaunchAngle)
    (hhla : m2.horizontalLaunchAngle = m1.horizontalLaunchAngle)
    (hback : m2.backspin = m1.backspin)
    (hside : m2.sidespin = m1.sidespin)
    (hclub : m2.clubSpeed = m1.clubSpeed)
    (hb0 : 0 ≤ m1.backspin) (hbS : m1.backspin ≤ 20000)
    (hang0 : 0 < m1.verticalLaunchAngle) (hang1 : m1.verticalLaunchAngle < 90)
    (hv2 : 0 < m2.ballSpeed) (hlt : m2.ballSpeed < m1.ballSpeed)
    (hcap : m1.ballSpeed ≤ 200) :
    (computeDerived m2).carryDistance < (computeDerived m1).carryDistance := by
  show carryOf m2 < carryOf m1
  unfold carryOf landingState
  have hcfg : spinCfg m2 = spinCfg m1 := by
    unfold spinCfg
    rw [hback, hside]
  rw [hcfg]
  have hcb0 : 0 ≤ (spinCfg m1).backspin := hb0
  have hcbS : (spinCfg m1).backspin ≤ 20000 := hbS
  have habs : |m1.verticalLaunchAngle| ≤ 90 := by
    rw [abs_of_pos hang0]
    exact hang1.le
  have hcos : 0 < cosDeg m1.verticalLaunchAngle :=
    cosDeg_pos _ (by rw [abs_of_pos hang0]; exact hang1)
  have hcos1 : cosDeg m1.verticalLaunchAngle ≤ 1 := cosDeg_le_one _ habs
  have hsin : 0 < sinDeg m1.verticalLaunchAngle :=
    sinDeg_pos _ hang0 (by linarith)
  have hsin1 : |sinDeg m1.verticalLaunchAngle| ≤ 1 := sinDeg_abs_le_one _ habs
  have hsinle : sinDeg m1.verticalLaunchAngle ≤ 1 := by
    have := le_abs_self (sinDeg m1.verticalLaunchAngle)
    linarith
  have hvx1 : (initialState m1).vx = m1.ballSpeed * cosDeg m1.verticalLaunchAngle := rfl
  have hvx2 : (initialState m2).vx = m2.ballSpeed * cosDeg m1.verticalLaunchAngle := by
    show m2.ballSpeed * cosDeg m2.verticalLaunchAngle = _
    rw [hvla]
  have hvz1 : (initialState m1).vz = m1.ballSpeed * sinDeg m1.verticalLaunchAngle := rfl
  have hvz2 : (initialState m2).vz = m2.ballSpeed * sinDeg m1.verticalLaunchAngle := by
    show m2.ballSpeed * sinDeg m2.verticalLaunchAngle = _
    rw [hvla]
  have hmcast : ((maxSteps : Nat) : ℚ) * (9 / 10) = 5400 := by
    norm_num [maxSteps]
  have hB1 : SimBounds maxSteps (initialState m1) := by
    refine ⟨?_, ?_, ?_⟩
    · rw [hvx1]
      exact mul_nonneg (by linarith) hcos.le
    · rw [hvx1]
      nlinarith
    · rw [hvz1, hmcast, abs_mul]
      have hb : |m1.ballSpeed| = m1.ballSpeed := abs_of_pos (by linarith)
      rw [hb]
      nlinarith [abs_nonneg (sinDeg m1.verticalLaunchAngle)]
  have hB2 : SimBounds maxSteps (initialState m2) := by
    refine ⟨?_, ?_, ?_⟩
    · rw [hvx2]
      exact mul_nonneg hv2.le hcos.le
    · rw [hvx2]
      nlinarith
    · rw [hvz2, hmcast, abs_mul]
      have hb : |m2.ballSpeed| = m2.ballSpeed := abs_of_pos hv2
      rw [hb]
      nlinarith [abs_nonneg (sinDeg m1.verticalLaunchAngle)]
  have hvx0 : (initialState m2).vx < (initialState m1).vx := by
    rw [hvx1, hvx2]
    exact mul_lt_mul_of_pos_right hlt hcos
  have hvz0 : (initialState m2).vz ≤ (initialState m1).vz := by
    rw [hvz1, hvz2]
    nlinarith
  have hvzb1 : |(initialState m1).vz| ≤ 5600 := by
    have := hB1.2.2
    rw [hmcast] at this
    linarith
  have hvzb2 : |(initialState m2).vz| ≤ 5600 := by
    have := hB2.2.2
    rw [hmcast] at this
    linarith
  have hms : maxSteps = 5999 + 1 := rfl
  rw [hms]
  have hB1s : SimBounds 5999 (stepState (spinCfg m1) (initialState m1)) := by
    apply simBounds_step _ hcb0 hcbS
    rw [← hms]
    exact hB1
  have hB2s : SimBounds 5999 (stepState (spinCfg m1) (initialState m2)) := by
    apply simBounds_step _ hcb0 hcbS
    rw [← hms]
    exact hB2
  have hx' : (stepState (spinCfg m1) (initialState m2)).x <
      (stepState (spinCfg m1) (initialState m1)).x := by
    show (initialState m2).x + (initialState m2).vx * dt <
      (initialState m1).x + (initialState m1).vx * dt
    have h0a : (initialState m1).x = 0 := rfl
    have h0b : (initialState m2).x = 0 := rfl
    rw [h0a, h0b]
    simp only [dt]
    linarith
  have hvx' : (stepState (spinCfg m1) (initialState m2)).vx <
      (stepState (spinCfg m1) (initialState m1)).vx :=
    step_vx_mono _ _ _ hB2.1 hB1.2.1 hvx0
  have hz' : (stepState (spinCfg m1) (initialState m2)).z ≤
      (stepState (spinCfg m1) (initialState m1)).z := by
    show (initialState m2).z + (initialState m2).vz * dt ≤
      (initialState m1).z + (initialState m1).vz * dt
    have h0a : (initialState m1).z = 0 := rfl
    have h0b : (initialState m2).z = 0 := rfl
    rw [h0a, h0b]
    simp only [dt]
    linarith
  have hvz' : (stepState (spinCfg m1) (initialState m2)).vz ≤
      (stepState (spinCfg m1) (initialState m1)).vz :=
    step_vz_mono _ hcb0 _ _ hvzb1 hvzb2 hvx0.le hvz0
  have hcontact_imp : groundContactB (stepState (spinCfg m1) (initialState m1)) = true →
      groundContactB (stepState (spinCfg m1) (initialState m2)) = true := by
    intro hg
    simp only [groundContactB, Bool.and_eq_true, decide_eq_true_eq] at hg ⊢
    exact ⟨le_trans hz' hg.1, le_trans hvz' hg.2⟩
  by_cases hg1 : groundContactB (stepState (spinCfg m1) (initialState m1)) = true
  · have hg2 := hcontact_imp hg1
    rw [finalState_succ (spinCfg m1) 5999 (initialState m2),
      finalState_succ (spinCfg m1) 5999 (initialState m1), if_pos hg1, if_pos hg2]
    exact hx'
  · by_cases hg2 : groundContactB (stepState (spinCfg m1) (initialState m2)) = true
    · rw [finalState_succ (spinCfg m1) 5999 (initialState m2),
        finalState_succ (spinCfg m1) 5999 (initialState m1), if_neg hg1, if_pos hg2]
      exact lt_of_lt_of_le hx' (finalState_vx_x _ 5999 _ hB1s.1).2
    · rw [finalState_succ (spinCfg m1) 5999 (initialState m2),
        finalState_succ (spinCfg m1) 5999 (initialState m1), if_neg hg1, if_neg hg2]
      exact finalState_x_lt _ hcb0 hcbS 5999 _ _ hB1s hB2s hx' hvx' hz' hvz'

/-- Witness for C6 at two concrete measurements differing only in ball
speed (70 versus 60 m per s). -/
theorem claim_C6_carry_monotonicity_witness :
    (computeDerived
        { ballSpeed := 60, verticalLaunchAngle := 12, horizontalLaunchAngle := 0
          backspin := 2500, sidespin := 0, clubSpeed := none }).carryDistance <
    (computeDerived
        { ballSpeed := 70, verticalLaunchAngle := 12, horizontalLaunchAngle := 0
          backspin := 2500, sidespin := 0, clubSpeed := none }).carryDistance :=
  claim_C6_carry_monotonicity
    { ballSpeed := 70, verticalLaunchAngle := 12, horizontalLaunchAngle := 0
      backspin := 2500, sidespin := 0, clubSpeed := none }
    { ballSpeed := 60, verticalLaunchAngle := 12, horizontalLaunchAngle := 0
      backspin := 2500, sidespin := 0, clubSpeed := none }
    rfl rfl rfl rfl rfl (by norm_num) (by norm_num) (by norm_num) (by norm_num)
    (by norm_num) (by norm_num) (by norm_num)
